import Mathlib

/-!
# Boundary marshalling of `libsession-util` (`util.cpp`)

A shallow embedding of the conversion functions of `util.cpp` and of the exported
entry points that the properties below are about.

Conventions of the embedding.

* Target platform: a 64-bit Android ABI. `size_t`, `long`, `long long` and `jlong` are
  64 bits wide, `jsize` is 32 bits wide, `jbyte` is a signed 8-bit integer.  Integer
  conversions are written out with `toSigned`.
* A native byte string (`session::ustring`, `session::ustring_view`) is the list of its
  bytes; a native `std::string` is the list of its `char`s, NUL bytes included.
* A managed `byte[]` is the list of its `jbyte`s.  A managed `String` is the list of the
  bytes of its (modified UTF-8) encoding, which never holds a NUL byte; the text encoding
  is otherwise transparent: `GetStringUTFChars` gives back what `NewStringUTF` was given.
* `Option` at a managed reference: `none` is `null`, no object.
* The functions of the configuration and cryptographic libraries and of the managed side
  that the code calls are parameters of the embedding, or are modelled from the
  specification where a definition says so.
* The managed calls and the native collaborator calls that the properties speak about are
  recorded in a trace.
-/

namespace jni

/-- One `unsigned char` or `char`. -/
abbrev uchar := Fin 256

/-- Value of the conversion of an integer to the signed integer type of `w` bits. -/
def toSigned (w : Nat) (n : Int) : Int :=
  if n % 2 ^ w < 2 ^ (w - 1) then n % 2 ^ w else n % 2 ^ w - 2 ^ w

/-- The cast `(jsize)n`. -/
def to_jsize (n : Int) : Int := toSigned 32 n

/-- The conversion to `jlong`. -/
def to_jlong (n : Int) : Int := toSigned 64 n

/-- The conversion to the native `long`. -/
def to_long (n : Int) : Int := toSigned 64 n

/-- The `jbyte` with the bit pattern of an `unsigned char` (the pointer cast `(jbyte*)`). -/
def to_jbyte (b : uchar) : Int := toSigned 8 b.val

/-- The `unsigned char` with the bit pattern of a `jbyte`
(`reinterpret_cast<const unsigned char *>`). -/
def to_uchar (j : Int) : uchar := ⟨(j % 256).toNat, by omega⟩

/-- A managed `byte[]` that is not `null`. -/
abbrev jbyteArray := List Int

/-- A managed `String` that is not `null`. -/
abbrev jstring := List uchar

/-- A managed class, named as `FindClass` names it; `IsSameObject` on two classes is
equality of the names. -/
abbrev jclass := String

/-- `NewByteArray(len)`: a zero-filled array, and no array for a negative length. -/
def NewByteArray (len : Int) : Option jbyteArray :=
  if len < 0 then none else some (List.replicate len.toNat 0)

/-- `SetByteArrayRegion(array, start, len, buf)`: copies `len` elements of `buf` to
`array[start ..]`; an out-of-range region leaves the array as it is. -/
def SetByteArrayRegion (array : jbyteArray) (start len : Int) (buf : List Int) : jbyteArray :=
  if start < 0 ∨ len < 0 ∨ (array.length : Int) < start + len then array
  else array.take start.toNat ++ buf.take len.toNat ++ array.drop (start.toNat + len.toNat)

/-- `GetArrayLength(array)`. -/
def GetArrayLength {α : Type} (array : List α) : Int := (array.length : Int)

/-- `NewStringUTF(chars)`: the managed string of the NUL-terminated C string at `chars`,
that is, of the bytes before the first NUL. -/
def NewStringUTF (chars : List uchar) : jstring := chars.takeWhile (fun c => c ≠ 0)

/-- `GetStringUTFChars(s)`: the encoded bytes of the managed string (a NUL follows them). -/
def GetStringUTFChars (s : jstring) : List uchar := s

/-- The managed and collaborator calls recorded in a trace. -/
inductive Call where
  | GetLongField (field : String) : Call
  | GetObjectArrayElement (array : String) (index : Nat) : Call
  | CallStaticObjectMethod (cls method : String) (arg : jstring) : Call
  | ThrowNew (cls message : String) : Call
  deriving DecidableEq, Repr

/-- A result together with the recorded calls, oldest first. -/
structure Traced (α : Type) where
  value : α
  calls : List Call
  deriving DecidableEq, Repr

end jni

namespace util
open jni

/-- The type `session::ustring` (and a `session::ustring_view` of a whole string). -/
abbrev ustring := List uchar

/-- The type `std::string`; `data()` points at these bytes followed by a NUL. -/
abbrev std_string := List uchar

/-- The construction or assignment of a `std::string` from a C string: the bytes before
the first NUL. -/
def string_of_chars (chars : List uchar) : std_string := chars.takeWhile (fun c => c ≠ 0)

/-- Embedding of `util::bytes_from_ustring`.  No array is produced (`none`) when
`NewByteArray` refuses the length. -/
def bytes_from_ustring (from_str : ustring) : Option jbyteArray :=
  let length : Nat := from_str.length
  let jlength : Int := to_jsize length
  (NewByteArray jlength).map fun new_array =>
    SetByteArrayRegion new_array 0 jlength (from_str.map to_jbyte)

/-- Embedding of `util::ustring_from_bytes`. -/
def ustring_from_bytes (byteArray : jbyteArray) : ustring :=
  let len : Nat := (GetArrayLength byteArray).toNat
  let bytes : List Int := byteArray
  (bytes.map to_uchar).take len

/-- The enumeration `session::config::expiration_mode`. -/
inductive expiration_mode where
  | none : expiration_mode
  | after_send : expiration_mode
  | after_read : expiration_mode
  deriving DecidableEq, Repr

/-- Modelled from the spec: a managed value handed to the expiry codec, with its runtime
class and the value of its `expirySeconds` field (the managed `ExpiryMode` classes are not
part of the sources). -/
structure ExpiryModeObject where
  cls : jclass
  expirySeconds : Int
  deriving DecidableEq, Repr

/-- The class name of `ExpiryMode$NONE`. -/
def cls_NONE : jclass := "network/loki/messenger/libsession_util/util/ExpiryMode$NONE"

/-- The class name of `ExpiryMode$AfterSend`. -/
def cls_AfterSend : jclass := "network/loki/messenger/libsession_util/util/ExpiryMode$AfterSend"

/-- The class name of `ExpiryMode$AfterRead`. -/
def cls_AfterRead : jclass := "network/loki/messenger/libsession_util/util/ExpiryMode$AfterRead"

/-- Modelled from the spec: the singleton `ExpiryMode$NONE.INSTANCE`, a managed value with
no payload (its `expirySeconds` is never read by the codec). -/
def NONE_INSTANCE : ExpiryModeObject := ⟨cls_NONE, 0⟩

/-- Modelled from the spec: the constructor `(J)V` of `AfterSend` and `AfterRead` gives a
managed value of that class carrying the duration in `expirySeconds`. -/
def NewObject_expiry (cls : jclass) (seconds : Int) : ExpiryModeObject := ⟨cls, to_jlong seconds⟩

/-- Embedding of `util::serialize_expiry`; `none` is the `nullptr` of the last line. -/
def serialize_expiry (mode : expiration_mode) (time_seconds : Int) : Option ExpiryModeObject :=
  if mode = expiration_mode.none then
    some NONE_INSTANCE
  else if mode = expiration_mode.after_send then
    some (NewObject_expiry cls_AfterSend time_seconds)
  else if mode = expiration_mode.after_read then
    some (NewObject_expiry cls_AfterRead time_seconds)
  else
    none

/-- Embedding of `util::deserialize_expiry`, with the reads of the duration field traced. -/
def deserialize_expiry (expiry_mode : ExpiryModeObject) : Traced (expiration_mode × Int) :=
  let object_class := expiry_mode.cls
  if object_class = cls_AfterRead then
    ⟨(expiration_mode.after_read, to_long expiry_mode.expirySeconds),
      [Call.GetLongField "expirySeconds"]⟩
  else if object_class = cls_AfterSend then
    ⟨(expiration_mode.after_send, to_long expiry_mode.expirySeconds),
      [Call.GetLongField "expirySeconds"]⟩
  else
    ⟨(expiration_mode.none, 0), []⟩

/-- The record `session::config::profile_pic`. -/
structure profile_pic where
  url : std_string
  key : ustring
  deriving DecidableEq, Repr

/-- Modelled from the spec: the tri-state status of an invitation or of a promotion
(`NotSent | Pending | Failed`). -/
inductive MemberStatus where
  | NotSent : MemberStatus
  | Pending : MemberStatus
  | Failed : MemberStatus
  deriving DecidableEq, Repr

/-- Modelled from the spec: the native group member record
`session::config::groups::member` of the configuration library, whose header is not part
of the sources: identifier, name, profile picture, admin flag and the two statuses. -/
structure member where
  session_id : std_string
  name : std_string
  profile_picture : profile_pic
  admin : Bool
  invite_status : MemberStatus
  promotion_status : MemberStatus
  deriving DecidableEq, Repr

/-- Modelled from the spec: the constructor `member(session_id)` gives a member with that
identifier and every other field at its default: empty name and picture, not an admin,
both statuses `NotSent`. -/
def member.create (session_id : List uchar) : member :=
  ⟨string_of_chars session_id, [], ⟨[], []⟩, false, MemberStatus.NotSent, MemberStatus.NotSent⟩

/-- Modelled from the spec: `set_invited(failed)` marks the invitation `Failed` when
`failed` and `Pending` otherwise. -/
def member.set_invited (m : member) (failed : Bool) : member :=
  { m with invite_status := if failed then MemberStatus.Failed else MemberStatus.Pending }

/-- Modelled from the spec: `set_promoted(failed)` marks the promotion `Failed` when
`failed` and `Pending` otherwise.  The setter of the library also raises the admin flag;
the source assigns `admin` after the setters. -/
def member.set_promoted (m : member) (failed : Bool) : member :=
  { m with
    admin := true
    promotion_status := if failed then MemberStatus.Failed else MemberStatus.Pending }

/-- Modelled from the spec: `profile_pic::set_key(key)` stores the key. -/
def profile_pic.set_key (p : profile_pic) (key : ustring) : profile_pic :=
  { p with key := key }

/-- The four flag accessors of the native member that `serialize_group_member` calls
(`invite_failed()`, `invite_pending()`, `promotion_failed()`, `promotion_pending()`).  They
belong to the configuration library and are taken as given. -/
structure member_flags where
  invite_failed : member → Bool
  invite_pending : member → Bool
  promotion_failed : member → Bool
  promotion_pending : member → Bool

/-- An instance of the flag accessors: the pending flag reports every status other than
`NotSent`, the failed flag reports `Failed`. -/
def flags_of_status : member_flags where
  invite_failed m := decide (m.invite_status = MemberStatus.Failed)
  invite_pending m := decide (m.invite_status ≠ MemberStatus.NotSent)
  promotion_failed m := decide (m.promotion_status = MemberStatus.Failed)
  promotion_pending m := decide (m.promotion_status ≠ MemberStatus.NotSent)

/-- Modelled from the spec: the managed `UserPic` object, with fields `url` and `key`. -/
structure UserPic where
  url : jstring
  key : jbyteArray
  deriving DecidableEq, Repr

/-- Modelled from the spec: the managed `GroupMember` object with the fields that
`deserialize_group_member` reads. -/
structure GroupMember where
  sessionId : jstring
  name : jstring
  profilePicture : UserPic
  inviteFailed : Bool
  invitePending : Bool
  admin : Bool
  promotionFailed : Bool
  promotionPending : Bool
  deriving DecidableEq, Repr

/-- Modelled from the spec: the canonical constructor of `GroupMember`, of signature
`(String, String, UserPic, ZZZZZ)`, stores its arguments in the fields `sessionId`, `name`,
`profilePicture`, `inviteFailed`, `invitePending`, `admin`, `promotionFailed`,
`promotionPending`, in this order. -/
def NewObject_GroupMember (session_id name : jstring) (user_pic : UserPic)
    (invite_failed invite_pending admin promotion_failed promotion_pending : Bool) :
    GroupMember :=
  ⟨session_id, name, user_pic, invite_failed, invite_pending, admin, promotion_failed,
    promotion_pending⟩

/-- Embedding of `util::serialize_user_pic`. -/
def serialize_user_pic (pic : profile_pic) : Option UserPic :=
  let url : jstring := NewStringUTF pic.url
  (bytes_from_ustring pic.key).map fun byteArray => UserPic.mk url byteArray

/-- Embedding of `util::deserialize_user_pic`. -/
def deserialize_user_pic (user_pic : UserPic) : jstring × jbyteArray :=
  let pic := user_pic.url
  let key := user_pic.key
  (pic, key)

/-- Embedding of `util::serialize_group_member`. -/
def serialize_group_member (flags : member_flags) (m : member) : Option GroupMember :=
  (serialize_user_pic m.profile_picture).map fun user_pic =>
    let session_id : jstring := NewStringUTF m.session_id
    let name : jstring := NewStringUTF m.name
    let invite_failed := flags.invite_failed m
    let invite_pending := flags.invite_pending m
    let admin := m.admin
    let promotion_failed := flags.promotion_failed m
    let promotion_pending := flags.promotion_pending m
    NewObject_GroupMember session_id name user_pic invite_failed invite_pending admin
      promotion_failed promotion_pending

/-- Embedding of `util::deserialize_group_member`. -/
def deserialize_group_member (gm : GroupMember) : member :=
  let session_id_bytes := GetStringUTFChars gm.sessionId
  let name_bytes := GetStringUTFChars gm.name
  let user_pic := deserialize_user_pic gm.profilePicture
  let url_bytes := GetStringUTFChars user_pic.1
  let pic_key := ustring_from_bytes user_pic.2
  let invite_failed := gm.inviteFailed
  let invite_pending := gm.invitePending
  let admin := gm.admin
  let promotion_failed := gm.promotionFailed
  let promotion_pending := gm.promotionPending
  let group_member := member.create session_id_bytes
  let group_member := { group_member with name := string_of_chars name_bytes }
  let group_member := { group_member with
    profile_picture := { group_member.profile_picture with url := string_of_chars url_bytes } }
  let group_member := { group_member with
    profile_picture := group_member.profile_picture.set_key pic_key }
  let group_member :=
    if invite_pending then group_member.set_invited false
    else if invite_failed then group_member.set_invited true
    else group_member
  let group_member :=
    if promotion_pending then group_member.set_promoted false
    else if promotion_failed then group_member.set_promoted true
    else group_member
  { group_member with admin := admin }

end util

namespace util
open jni

/-- Modelled from the spec: the managed `SessionId` object, holding its hex string. -/
structure SessionId where
  hexString : jstring
  deriving DecidableEq, Repr

/-- A `std::string_view` of `char`s: the `size()` characters of the view, and the bytes
that follow them in the buffer the view points into, as far as the next NUL is looked for.
`data()` points at the characters followed by those bytes, and a NUL follows these.  For a
view of a whole `std::string` the following bytes are empty. -/
structure string_view where
  chars : List uchar
  following : List uchar
  deriving DecidableEq, Repr

/-- The member `size()` of a `std::string_view`. -/
def string_view.size (v : string_view) : Nat := v.chars.length

/-- The bytes at `data()` of a `std::string_view`, up to the NUL that ends the buffer. -/
def string_view.data (v : string_view) : List uchar := v.chars ++ v.following

/-- Embedding of `util::serialize_session_id`.  The managed factory `SessionId.from` is
taken as given.  The length test is on `size()`, the managed string is made from the
C string at `data()`. -/
def serialize_session_id (SessionId_from : jstring → Option SessionId)
    (session_id : string_view) : Traced (Option SessionId) :=
  if session_id.size ≠ 66 then
    ⟨none, []⟩
  else
    let session_id_string : jstring := NewStringUTF session_id.data
    ⟨SessionId_from session_id_string,
      [Call.CallStaticObjectMethod "org/session/libsignal/utilities/SessionId" "from"
        session_id_string]⟩

end util

/-- The type `std::array<unsigned char, 32>`. -/
abbrev array32 := { l : List jni.uchar // l.length = 32 }

/-- Embedding of the exported `Sodium.ed25519PkToCurve25519`.  The conversion
`crypto_sign_ed25519_pk_to_curve25519` of the cryptographic library is taken as given: from
the bytes at `ed_pk.data()` it gives its status and the contents it leaves in `curve_pk`. -/
def Java_network_loki_messenger_libsession_1util_util_Sodium_ed25519PkToCurve25519
    (crypto_sign_ed25519_pk_to_curve25519 : util.ustring → Int × array32)
    (pk : jni.jbyteArray) : jni.Traced (Option jni.jbyteArray) :=
  let ed_pk := util.ustring_from_bytes pk
  let converted := crypto_sign_ed25519_pk_to_curve25519 ed_pk
  let curve_pk : array32 := converted.2
  let success : Int := converted.1
  if success ≠ 0 then
    ⟨none, [jni.Call.ThrowNew "java/lang/Exception"
      "Invalid crypto_sign_ed25519_pk_to_curve25519 operation"]⟩
  else
    let curve_pk_jarray := util.bytes_from_ustring curve_pk.val
    ⟨curve_pk_jarray, []⟩

/-- A `session::ustring_view`: it owns no bytes and refers to a native string object. -/
structure ustring_view where
  object : Nat
  deriving DecidableEq, Repr

/-- The native `ustring` objects created during a call, in the order of their construction:
the bytes of an object while it is alive, `none` once it is destroyed. -/
abbrev Objects := List (Option util.ustring)

/-- The construction of a native string object holding `s`; the result names the object. -/
def Objects.construct (objects : Objects) (s : util.ustring) : Objects × Nat :=
  (objects ++ [some s], objects.length)

/-- The destruction of a native string object at the end of its block. -/
def Objects.destroy (objects : Objects) (object : Nat) : Objects :=
  objects.set object none

/-- What a view refers to: the bytes of its string object, or `none` when that object is
destroyed (the view dangles). -/
def Objects.read (objects : Objects) (v : ustring_view) : Option util.ustring :=
  (objects.get? v.object).join

/-- One call of the collaborator `session::encrypt_for_multiple_simple`, with what each
message and recipient view refers to when the call is made. -/
structure EncryptCall where
  messages : List (Option util.ustring)
  recipients : List (Option util.ustring)
  sk : util.ustring
  domain : List jni.uchar
  nonce : util.ustring
  deriving DecidableEq, Repr

/-- The local state of the loop of the multi-recipient `encryptForMultipleSimple`. -/
structure EncryptLoop where
  objects : Objects
  message_vec : List ustring_view
  recipient_vec : List ustring_view
  calls : List jni.Call
  deriving DecidableEq, Repr

/-- The body of the loop for the index `i`: the two elements are read and converted into
the block-local strings `message` and `recipient`, views of them are appended to the
vectors, and the two strings are destroyed at the end of the block. -/
def encryptForMultipleSimple_body (messages recipients : List jni.jbyteArray)
    (st : EncryptLoop) (i : Nat) : EncryptLoop :=
  let message_j := messages.getD i []
  let recipient_j := recipients.getD i []
  let m := st.objects.construct (util.ustring_from_bytes message_j)
  let r := m.1.construct (util.ustring_from_bytes recipient_j)
  let message_vec := st.message_vec ++ [ustring_view.mk m.2]
  let recipient_vec := st.recipient_vec ++ [ustring_view.mk r.2]
  let objects := (r.1.destroy r.2).destroy m.2
  ⟨objects, message_vec, recipient_vec,
    st.calls ++ [jni.Call.GetObjectArrayElement "messages" i,
      jni.Call.GetObjectArrayElement "recipients" i]⟩

/-- The outcome of the multi-recipient `encryptForMultipleSimple`: the returned array
(`none` is `nullptr`), the managed calls and the collaborator calls made. -/
structure EncryptOutcome where
  value : Option jni.jbyteArray
  calls : List jni.Call
  encrypt_calls : List EncryptCall
  deriving DecidableEq, Repr

/-- Embedding of the exported multi-recipient `Sodium.encryptForMultipleSimple`.  The
collaborator `session::encrypt_for_multiple_simple` and the 24 bytes that `randombytes_buf`
writes are taken as given. -/
def Java_network_loki_messenger_libsession_1util_util_Sodium_encryptForMultipleSimple___3_3B_3_3B_3BLjava_lang_String_2
    (encrypt_for_multiple_simple : EncryptCall → util.ustring) (random_nonce : util.ustring)
    (messages recipients : List jni.jbyteArray) (ed25519_secret_key : jni.jbyteArray)
    (domain : jni.jstring) : EncryptOutcome :=
  let size : Nat := messages.length
  if recipients.length ≠ size then
    ⟨none, [], []⟩
  else
    let st := (List.range size).foldl (encryptForMultipleSimple_body messages recipients)
      ⟨[], [], [], []⟩
    let sk := util.ustring_from_bytes ed25519_secret_key
    let nonce := random_nonce
    let domain_string := jni.GetStringUTFChars domain
    let call : EncryptCall :=
      ⟨st.message_vec.map st.objects.read, st.recipient_vec.map st.objects.read, sk,
        domain_string, nonce⟩
    let result := encrypt_for_multiple_simple call
    let encoded := util.bytes_from_ustring result
    ⟨encoded, st.calls, [call]⟩

/-- The native configuration types that `Config.free` deletes. -/
inductive ConfigType where
  | ConfigSig : ConfigType
  | ConfigBase : ConfigType
  deriving DecidableEq, Repr

/-- Modelled from the spec: the managed wrapper of a configuration handle, with its runtime
class and its `pointer` field. -/
structure Config where
  cls : jni.jclass
  pointer : Int
  deriving DecidableEq, Repr

/-- The native side as far as `Config.free` touches it: the addresses of the live
configuration objects, and the destructor invocations so far, oldest first. -/
structure Native where
  live : List Int
  destroyed : List (ConfigType × Int)
  deriving DecidableEq, Repr

/-- The expression `delete config` for a pointer of the given type: nothing for a null
pointer; otherwise the destructor of that type is invoked on the pointer and the object is
no longer live. -/
def Native.delete (n : Native) (t : ConfigType) (config : Int) : Native :=
  if config = 0 then n else ⟨n.live.erase config, n.destroyed ++ [(t, config)]⟩

/-- The class name of `ConfigSig`. -/
def cls_ConfigSig : jni.jclass := "network/loki/messenger/libsession_util/ConfigSig"

/-- The class name of `ConfigBase`. -/
def cls_ConfigBase : jni.jclass := "network/loki/messenger/libsession_util/ConfigBase"

/-- Embedding of the exported `Config.free`. -/
def Java_network_loki_messenger_libsession_1util_Config_free (thiz : Config) (n : Native) :
    Native :=
  let sig := cls_ConfigSig
  let base := cls_ConfigBase
  let ours := thiz.cls
  if sig = ours then
    let config := thiz.pointer
    n.delete ConfigType.ConfigSig config
  else if base = ours then
    let config := thiz.pointer
    n.delete ConfigType.ConfigBase config
  else
    n

/-- A message that `session::decrypt_for_multiple_simple` gives: the bytes of a native
string of fewer than 2^31 bytes.  The message of an envelope is no longer than the
envelope, and the envelope comes from a managed array, which has fewer than 2^31
elements. -/
abbrev message := { m : util.ustring // m.length < 2 ^ 31 }

/-- Embedding of the exported `Sodium.decryptForMultipleSimple`.  The collaborator
`session::decrypt_for_multiple_simple` is taken as given; it gives no value (`none`) when
the envelope does not authenticate. -/
def Java_network_loki_messenger_libsession_1util_util_Sodium_decryptForMultipleSimple
    (decrypt_for_multiple_simple :
      util.ustring → util.ustring → util.ustring → List jni.uchar → Option message)
    (encoded secret_key sender_pub_key : jni.jbyteArray) (domain : jni.jstring) :
    jni.Traced (Option jni.jbyteArray) :=
  let sk_ustring := util.ustring_from_bytes secret_key
  let encoded_ustring := util.ustring_from_bytes encoded
  let pub_ustring := util.ustring_from_bytes sender_pub_key
  let domain_bytes := jni.GetStringUTFChars domain
  let result := decrypt_for_multiple_simple encoded_ustring sk_ustring pub_ustring domain_bytes
  match result with
  | some m => ⟨util.bytes_from_ustring m.val, []⟩
  | none => ⟨none, []⟩

namespace util
open jni

/-- Modelled from the spec: a managed `java.lang.Long`, the boxed 64-bit integer holding
the value given to its constructor `(J)V`. -/
structure Long where
  value : Int
  deriving DecidableEq, Repr

/-- Embedding of `util::jlongFromOptional`; the `long long` of the optional is an integer
of the signed 64-bit range. -/
def jlongFromOptional (optional : Option Int) : Option Long :=
  match optional with
  | none => none
  | some v => some (Long.mk (to_jlong v))

end util

open jni util

theorem to_uchar_to_jbyte (b : uchar) : to_uchar (to_jbyte b) = b := by
  apply Fin.ext
  have hb := b.isLt
  simp only [to_uchar, to_jbyte, toSigned]
  norm_num
  split <;> omega

theorem to_jsize_of_lt (n : Nat) (h : n < 2 ^ 31) : to_jsize (n : Int) = (n : Int) := by
  have h2 : (n : Int) < 2147483648 := by
    have : (2 : Nat) ^ 31 = 2147483648 := by norm_num
    omega
  unfold to_jsize toSigned
  have e1 : (2 : Int) ^ 32 = 4294967296 := by norm_num
  have e2 : (2 : Int) ^ (32 - 1) = 2147483648 := by norm_num
  rw [e1, e2]
  have : (n : Int) % 4294967296 = n := by omega
  rw [this, if_pos h2]

theorem NewByteArray_nat (n : Nat) : NewByteArray (n : Int) = some (List.replicate n 0) := by
  unfold NewByteArray
  have h0 : ¬ ((n : Int) < 0) := by omega
  rw [if_neg h0]
  simp

theorem SetByteArrayRegion_all (l : List Int) :
    SetByteArrayRegion (List.replicate l.length 0) 0 (l.length : Int) l = l := by
  unfold SetByteArrayRegion
  have h0 : ¬ ((0 : Int) < 0 ∨ (l.length : Int) < 0 ∨
      ((List.replicate l.length (0 : Int)).length : Int) < 0 + (l.length : Int)) := by
    simp
  rw [if_neg h0]
  simp

theorem bytes_from_ustring_of_lt (b : ustring) (h : b.length < 2 ^ 31) :
    bytes_from_ustring b = some (b.map to_jbyte) := by
  have hj := to_jsize_of_lt b.length h
  have hs := SetByteArrayRegion_all (b.map to_jbyte)
  rw [List.length_map] at hs
  unfold bytes_from_ustring
  simp only [hj, NewByteArray_nat, Option.map_some', hs]

theorem ustring_from_bytes_map (b : ustring) : ustring_from_bytes (b.map to_jbyte) = b := by
  simp [ustring_from_bytes, GetArrayLength, Function.comp_def, to_uchar_to_jbyte]

theorem to_jsize_two_pow_32 : to_jsize ((2 ^ 32 : Nat) : Int) = 0 := by
  unfold to_jsize toSigned
  norm_num

theorem SetByteArrayRegion_nil (buf : List Int) : SetByteArrayRegion [] 0 0 buf = [] := by
  unfold SetByteArrayRegion
  simp

theorem bytes_from_ustring_replicate :
    bytes_from_ustring (List.replicate (2 ^ 32) (0 : uchar)) = some [] := by
  unfold bytes_from_ustring
  simp only [List.length_replicate, to_jsize_two_pow_32]
  have h : NewByteArray 0 = some [] := by decide
  rw [h, Option.map_some', SetByteArrayRegion_nil]

theorem toSigned_of_range (w : Nat) (n : Int) (hw : 0 < w) (hlo : -(2 ^ (w - 1)) ≤ n)
    (hhi : n < 2 ^ (w - 1)) : toSigned w n = n := by
  have hp : (2 : Int) ^ w = 2 * 2 ^ (w - 1) := by
    obtain ⟨k, rfl⟩ := Nat.exists_eq_succ_of_ne_zero (Nat.pos_iff_ne_zero.mp hw)
    simp [pow_succ, mul_comm]
  have hpos : (0 : Int) < 2 ^ (w - 1) := by positivity
  unfold toSigned
  rw [hp]
  generalize (2 : Int) ^ (w - 1) = p at *
  by_cases h0 : 0 ≤ n
  · have : n % (2 * p) = n := Int.emod_eq_of_lt h0 (by omega)
    rw [this]; simp [hhi]
  · have h1 : n % (2 * p) = n + 2 * p := by
      have : (n + 2 * p) % (2 * p) = n + 2 * p := Int.emod_eq_of_lt (by omega) (by omega)
      rw [← this]; simp
    rw [h1]
    have : ¬ (n + 2 * p < p) := by omega
    simp [this]

theorem to_jlong_of_range (d : Int) (hlo : -(2 ^ 63) ≤ d) (hhi : d < 2 ^ 63) :
    to_jlong d = d :=
  toSigned_of_range 64 d (by norm_num) (by simpa using hlo) (by simpa using hhi)

theorem to_long_of_range (d : Int) (hlo : -(2 ^ 63) ≤ d) (hhi : d < 2 ^ 63) :
    to_long d = d :=
  toSigned_of_range 64 d (by norm_num) (by simpa using hlo) (by simpa using hhi)

theorem takeWhile_ne_zero_of_not_mem (s : List uchar) (h : (0 : uchar) ∉ s) :
    s.takeWhile (fun c => c ≠ 0) = s := by
  induction s with
  | nil => rfl
  | cons a t ih =>
    have ha : a ≠ 0 := fun e => h (by simp [e])
    have ht : (0 : uchar) ∉ t := fun e => h (List.mem_cons_of_mem _ e)
    rw [List.takeWhile_cons]
    simp only [ha, ne_eq, not_false_eq_true, decide_True, if_true]
    exact congrArg _ (ih ht)

/-- C1 (as amended): for every byte sequence of fewer than 2^31 bytes, the managed array
built by `bytes_from_ustring` has exactly as many elements, holding the same bytes in
order, and `ustring_from_bytes` reads the same sequence back. -/
theorem ustring_bytes_roundtrip (b : ustring) (h : b.length < 2 ^ 31) :
    bytes_from_ustring b = some (b.map to_jbyte) ∧
      (b.map to_jbyte).length = b.length ∧
      (b.map to_jbyte).map to_uchar = b ∧
      (bytes_from_ustring b).map ustring_from_bytes = some b := by
  refine ⟨bytes_from_ustring_of_lt b h, List.length_map _ _, ?_, ?_⟩
  · simp [Function.comp_def, to_uchar_to_jbyte]
  · rw [bytes_from_ustring_of_lt b h, Option.map_some', ustring_from_bytes_map]

/-- Witness of C1: the sequence `01 00 ff`, with a zero byte in the middle. -/
theorem ustring_bytes_roundtrip_witness :
    ([1, 0, 255] : ustring).length < 2 ^ 31 ∧
      (bytes_from_ustring [1, 0, 255]).map ustring_from_bytes = some [1, 0, 255] :=
  ⟨by decide, (ustring_bytes_roundtrip [1, 0, 255] (by decide)).2.2.2⟩

/-- C1 (counterexample): a byte sequence of 2^32 bytes is turned into the empty managed
array, so reading it back does not give the sequence. -/
theorem ustring_bytes_roundtrip_fails :
    (bytes_from_ustring (List.replicate (2 ^ 32) (0 : uchar))).map ustring_from_bytes
      ≠ some (List.replicate (2 ^ 32) (0 : uchar)) := by
  rw [bytes_from_ustring_replicate]
  intro h
  have h2 := congrArg (Option.map List.length) h
  simp only [Option.map_some', List.length_replicate, Option.some.injEq] at h2
  have h3 : (ustring_from_bytes []).length = 0 := by decide
  rw [h3] at h2
  norm_num at h2

/-- C2: for each of the three expiry modes and every 64-bit duration `d`,
`serialize_expiry` gives a managed value that `deserialize_expiry` turns back into the
same mode, with the same duration for `after_send` and `after_read` (and the duration 0
for `none`, which carries no duration). -/
theorem expiry_roundtrip (mode : expiration_mode) (d : Int) (hlo : -(2 ^ 63) ≤ d)
    (hhi : d < 2 ^ 63) :
    (serialize_expiry mode d).map (fun o => (deserialize_expiry o).value)
      = some (mode, if mode = expiration_mode.none then 0 else d) := by
  have h1 := to_jlong_of_range d hlo hhi
  have h2 := to_long_of_range d hlo hhi
  cases mode
  · simp [serialize_expiry, deserialize_expiry, NONE_INSTANCE, cls_NONE, cls_AfterRead,
      cls_AfterSend]
  · simp [serialize_expiry, deserialize_expiry, NewObject_expiry, cls_AfterRead,
      cls_AfterSend, h1, h2]
  · simp [serialize_expiry, deserialize_expiry, NewObject_expiry, cls_AfterRead,
      cls_AfterSend, h1, h2]

/-- Witness of C2: `after_read` with the largest 64-bit duration. -/
theorem expiry_roundtrip_witness :
    (-(2 ^ 63) ≤ (9223372036854775807 : Int) ∧ (9223372036854775807 : Int) < 2 ^ 63) ∧
    (serialize_expiry expiration_mode.after_read 9223372036854775807).map
        (fun o => (deserialize_expiry o).value)
      = some (expiration_mode.after_read, 9223372036854775807) :=
  ⟨⟨by norm_num, by norm_num⟩,
    expiry_roundtrip expiration_mode.after_read 9223372036854775807 (by norm_num)
      (by norm_num)⟩

/-- C9: `deserialize_expiry` gives a result for every managed value; when the runtime class
is neither `AfterRead` nor `AfterSend` the result is `(none, 0)` and nothing is read; the
duration field is read exactly when the class is `AfterRead` or `AfterSend`, and no other
managed call (in particular no throw) is made. -/
theorem deserialize_expiry_fallback (o : ExpiryModeObject) :
    (o.cls ≠ cls_AfterRead → o.cls ≠ cls_AfterSend →
        deserialize_expiry o = ⟨(expiration_mode.none, 0), []⟩) ∧
      (Call.GetLongField "expirySeconds" ∈ (deserialize_expiry o).calls ↔
        (o.cls = cls_AfterRead ∨ o.cls = cls_AfterSend)) ∧
      (∀ c ∈ (deserialize_expiry o).calls, c = Call.GetLongField "expirySeconds") := by
  simp only [deserialize_expiry]
  by_cases h1 : o.cls = cls_AfterRead
  · rw [if_pos h1]
    simp [h1]
  · rw [if_neg h1]
    by_cases h2 : o.cls = cls_AfterSend
    · rw [if_pos h2]
      simp [h2]
    · rw [if_neg h2]
      simp [h1, h2]

/-- Witness of C9: the `NONE` singleton and a value of an unrecognized class. -/
theorem deserialize_expiry_fallback_witness :
    deserialize_expiry NONE_INSTANCE = ⟨(expiration_mode.none, 0), []⟩ ∧
      deserialize_expiry ⟨"java/lang/Object", 77⟩ = ⟨(expiration_mode.none, 0), []⟩ :=
  ⟨(deserialize_expiry_fallback NONE_INSTANCE).1 (by decide) (by decide),
    (deserialize_expiry_fallback ⟨"java/lang/Object", 77⟩).1 (by decide) (by decide)⟩

/-- C3: in `deserialize_group_member` each of the two statuses is `Pending` whenever the
pending flag is set (whatever the failed flag), `Failed` when pending is clear and failed is
set, and `NotSent`, the default of a fresh member, when both are clear. -/
theorem deserialize_group_member_status (gm : GroupMember) :
    (gm.invitePending = true →
        (deserialize_group_member gm).invite_status = MemberStatus.Pending) ∧
      (gm.invitePending = false → gm.inviteFailed = true →
        (deserialize_group_member gm).invite_status = MemberStatus.Failed) ∧
      (gm.invitePending = false → gm.inviteFailed = false →
        (deserialize_group_member gm).invite_status = MemberStatus.NotSent) ∧
      (gm.promotionPending = true →
        (deserialize_group_member gm).promotion_status = MemberStatus.Pending) ∧
      (gm.promotionPending = false → gm.promotionFailed = true →
        (deserialize_group_member gm).promotion_status = MemberStatus.Failed) ∧
      (gm.promotionPending = false → gm.promotionFailed = false →
        (deserialize_group_member gm).promotion_status = MemberStatus.NotSent) := by
  unfold deserialize_group_member
  cases h1 : gm.invitePending <;> cases h2 : gm.inviteFailed <;>
    cases h3 : gm.promotionPending <;> cases h4 : gm.promotionFailed <;>
    simp [member.set_invited, member.set_promoted, member.create]

/-- Witness of C3: a managed member with all four flags set decodes to `Pending` twice. -/
theorem deserialize_group_member_status_witness :
    (deserialize_group_member
        ⟨[48, 53], [97], ⟨[], []⟩, true, true, false, true, true⟩).invite_status
      = MemberStatus.Pending ∧
    (deserialize_group_member
        ⟨[48, 53], [97], ⟨[], []⟩, true, true, false, true, true⟩).promotion_status
      = MemberStatus.Pending :=
  ⟨(deserialize_group_member_status
      ⟨[48, 53], [97], ⟨[], []⟩, true, true, false, true, true⟩).1 rfl,
    (deserialize_group_member_status
      ⟨[48, 53], [97], ⟨[], []⟩, true, true, false, true, true⟩).2.2.2.1 rfl⟩

/-- The status that `deserialize_group_member` makes of a pending and a failed flag. -/
theorem deserialize_group_member_decode (gm : GroupMember) :
    (deserialize_group_member gm).invite_status
        = (if gm.invitePending then MemberStatus.Pending
           else if gm.inviteFailed then MemberStatus.Failed else MemberStatus.NotSent) ∧
      (deserialize_group_member gm).promotion_status
        = (if gm.promotionPending then MemberStatus.Pending
           else if gm.promotionFailed then MemberStatus.Failed else MemberStatus.NotSent) ∧
      (deserialize_group_member gm).admin = gm.admin ∧
      (deserialize_group_member gm).session_id = string_of_chars gm.sessionId ∧
      (deserialize_group_member gm).name = string_of_chars gm.name ∧
      (deserialize_group_member gm).profile_picture
        = ⟨string_of_chars gm.profilePicture.url, ustring_from_bytes gm.profilePicture.key⟩ := by
  unfold deserialize_group_member
  cases h1 : gm.invitePending <;> cases h2 : gm.inviteFailed <;>
    cases h3 : gm.promotionPending <;> cases h4 : gm.promotionFailed <;>
    simp [member.set_invited, member.set_promoted, member.create, profile_pic.set_key,
      deserialize_user_pic, GetStringUTFChars]

/-- C10 (as amended): for a native member whose identifier, name and picture url hold no
NUL and whose picture key is shorter than 2^31 bytes, serializing and deserializing gives
back the identifier, the name, the profile picture and the admin flag; each status comes
back as the one decoded from the pending and failed flags reported for the member. -/
theorem group_member_roundtrip (flags : member_flags) (m : member)
    (hid : (0 : uchar) ∉ m.session_id) (hname : (0 : uchar) ∉ m.name)
    (hurl : (0 : uchar) ∉ m.profile_picture.url)
    (hkey : m.profile_picture.key.length < 2 ^ 31) :
    ∃ gm, serialize_group_member flags m = some gm ∧
      (deserialize_group_member gm).session_id = m.session_id ∧
      (deserialize_group_member gm).name = m.name ∧
      (deserialize_group_member gm).profile_picture = m.profile_picture ∧
      (deserialize_group_member gm).admin = m.admin ∧
      (deserialize_group_member gm).invite_status
        = (if flags.invite_pending m then MemberStatus.Pending
           else if flags.invite_failed m then MemberStatus.Failed
           else MemberStatus.NotSent) ∧
      (deserialize_group_member gm).promotion_status
        = (if flags.promotion_pending m then MemberStatus.Pending
           else if flags.promotion_failed m then MemberStatus.Failed
           else MemberStatus.NotSent) := by
  have hk := bytes_from_ustring_of_lt m.profile_picture.key hkey
  refine ⟨NewObject_GroupMember (NewStringUTF m.session_id) (NewStringUTF m.name)
    ⟨NewStringUTF m.profile_picture.url, m.profile_picture.key.map to_jbyte⟩
    (flags.invite_failed m) (flags.invite_pending m) m.admin (flags.promotion_failed m)
    (flags.promotion_pending m), ?_, ?_⟩
  · unfold serialize_group_member serialize_user_pic
    simp only [hk, Option.map_some']
  · obtain ⟨d1, d2, d3, d4, d5, d6⟩ := deserialize_group_member_decode
      (NewObject_GroupMember (NewStringUTF m.session_id) (NewStringUTF m.name)
        ⟨NewStringUTF m.profile_picture.url, m.profile_picture.key.map to_jbyte⟩
        (flags.invite_failed m) (flags.invite_pending m) m.admin (flags.promotion_failed m)
        (flags.promotion_pending m))
    rw [d1, d2, d3, d4, d5, d6]
    simp only [NewObject_GroupMember, NewStringUTF, string_of_chars,
      takeWhile_ne_zero_of_not_mem _ hid, takeWhile_ne_zero_of_not_mem _ hname,
      takeWhile_ne_zero_of_not_mem _ hurl, ustring_from_bytes_map, and_self]

/-- Witness of C10: a member with a failed invitation and a pending promotion. -/
theorem group_member_roundtrip_witness :
    ((0 : uchar) ∉ ([48, 53] : std_string) ∧ (0 : uchar) ∉ ([97, 98] : std_string) ∧
      (0 : uchar) ∉ ([104] : std_string) ∧ ([7, 0, 9] : ustring).length < 2 ^ 31) ∧
    ∃ gm, serialize_group_member flags_of_status
        ⟨[48, 53], [97, 98], ⟨[104], [7, 0, 9]⟩, true, MemberStatus.Failed,
          MemberStatus.Pending⟩ = some gm ∧
      (deserialize_group_member gm).session_id = [48, 53] ∧
      (deserialize_group_member gm).name = [97, 98] ∧
      (deserialize_group_member gm).profile_picture = ⟨[104], [7, 0, 9]⟩ ∧
      (deserialize_group_member gm).admin = true ∧
      (deserialize_group_member gm).invite_status = MemberStatus.Pending ∧
      (deserialize_group_member gm).promotion_status = MemberStatus.Pending :=
  ⟨⟨by decide, by decide, by decide, by decide⟩,
    group_member_roundtrip flags_of_status
      ⟨[48, 53], [97, 98], ⟨[104], [7, 0, 9]⟩, true, MemberStatus.Failed,
        MemberStatus.Pending⟩ (by decide) (by decide) (by decide) (by decide)⟩

/-- C10 (counterexample): a member whose name holds a NUL comes back with the name cut at
the NUL; and, with flags that report a failed invitation as pending too, a member with a
failed invitation comes back with a pending one. -/
theorem group_member_roundtrip_fails :
    (serialize_group_member flags_of_status
        ⟨[48, 53], [97, 0, 98], ⟨[], []⟩, false, MemberStatus.NotSent,
          MemberStatus.NotSent⟩).map deserialize_group_member
      = some ⟨[48, 53], [97], ⟨[], []⟩, false, MemberStatus.NotSent, MemberStatus.NotSent⟩ ∧
    (serialize_group_member flags_of_status
        ⟨[48, 53], [97], ⟨[], []⟩, false, MemberStatus.Failed,
          MemberStatus.NotSent⟩).map deserialize_group_member
      = some ⟨[48, 53], [97], ⟨[], []⟩, false, MemberStatus.Pending,
          MemberStatus.NotSent⟩ := by
  constructor <;> decide

theorem set_set_append_two {α : Type} (l : List (Option α)) (x y : Option α) :
    ((l ++ [x] ++ [y]).set (l.length + 1) none).set l.length none = l ++ [none, none] := by
  induction l with
  | nil => rfl
  | cons a t ih =>
    simp only [List.cons_append, List.length_cons, List.set_cons_succ]
    exact congrArg _ ih

theorem encryptForMultipleSimple_body_dangling (messages recipients : List jbyteArray)
    (st : EncryptLoop) (i : Nat) :
    encryptForMultipleSimple_body messages recipients st i
      = ⟨st.objects ++ [none, none],
          st.message_vec ++ [⟨st.objects.length⟩],
          st.recipient_vec ++ [⟨st.objects.length + 1⟩],
          st.calls ++ [Call.GetObjectArrayElement "messages" i,
            Call.GetObjectArrayElement "recipients" i]⟩ := by
  unfold encryptForMultipleSimple_body Objects.construct Objects.destroy
  simp only [List.length_append, List.length_singleton]
  rw [set_set_append_two]

theorem encryptForMultipleSimple_loop (messages recipients : List jbyteArray) (k : Nat) :
    (List.range k).foldl (encryptForMultipleSimple_body messages recipients) ⟨[], [], [], []⟩
      = ⟨List.replicate (2 * k) none,
          (List.range k).map (fun i => ⟨2 * i⟩),
          (List.range k).map (fun i => ⟨2 * i + 1⟩),
          (List.range k).flatMap (fun i => [Call.GetObjectArrayElement "messages" i,
            Call.GetObjectArrayElement "recipients" i])⟩ := by
  induction k with
  | zero => rfl
  | succ k ih =>
    rw [List.range_succ, List.foldl_append, ih]
    simp only [List.foldl_cons, List.foldl_nil, encryptForMultipleSimple_body_dangling,
      List.length_replicate, List.map_append, List.map_cons, List.map_nil,
      List.flatMap_append, List.flatMap_cons, List.flatMap_nil, List.append_nil]
    congr 1
    rw [show 2 * (k + 1) = 2 * k + 2 by ring, List.replicate_add]
    rfl

theorem read_replicate_none (n : Nat) (v : ustring_view) :
    Objects.read (List.replicate n none) v = none := by
  unfold Objects.read
  cases h : (List.replicate n (none : Option ustring)).get? v.object with
  | none => rfl
  | some x =>
    have hx := List.get?_mem h
    rw [List.mem_replicate] at hx
    rw [hx.2]
    rfl

/-- The multi-recipient `encryptForMultipleSimple` on collections of different lengths:
`nullptr` is returned, no element is read and the collaborator is not called. -/
theorem encryptForMultipleSimple_mismatch (encrypt : EncryptCall → ustring)
    (random_nonce : ustring) (messages recipients : List jbyteArray) (sk : jbyteArray)
    (domain : jstring) (h : recipients.length ≠ messages.length) :
    Java_network_loki_messenger_libsession_1util_util_Sodium_encryptForMultipleSimple___3_3B_3_3B_3BLjava_lang_String_2
        encrypt random_nonce messages recipients sk domain = ⟨none, [], []⟩ := by
  unfold Java_network_loki_messenger_libsession_1util_util_Sodium_encryptForMultipleSimple___3_3B_3_3B_3BLjava_lang_String_2
  simp only [h, ne_eq, not_false_eq_true, if_true]

/-- The multi-recipient `encryptForMultipleSimple` on collections of the same length `n`:
the collaborator is called once, with `n` message views and `n` recipient views, and every
one of these views refers to a string that is destroyed by then. -/
theorem encryptForMultipleSimple_dangling (encrypt : EncryptCall → ustring)
    (random_nonce : ustring) (messages recipients : List jbyteArray) (sk : jbyteArray)
    (domain : jstring) (h : recipients.length = messages.length) :
    (Java_network_loki_messenger_libsession_1util_util_Sodium_encryptForMultipleSimple___3_3B_3_3B_3BLjava_lang_String_2
        encrypt random_nonce messages recipients sk domain).encrypt_calls
      = [⟨List.replicate messages.length none, List.replicate messages.length none,
          ustring_from_bytes sk, domain, random_nonce⟩] := by
  unfold Java_network_loki_messenger_libsession_1util_util_Sodium_encryptForMultipleSimple___3_3B_3_3B_3BLjava_lang_String_2
  simp only [h, ne_eq, not_true_eq_false, if_false, encryptForMultipleSimple_loop,
    GetStringUTFChars]
  have e : ∀ (f : Nat → ustring_view) (k n : Nat),
      ((List.range k).map f).map (Objects.read (List.replicate n none))
        = List.replicate k none := by
    intro f k n
    apply List.eq_replicate_iff.mpr
    constructor
    · simp
    · intro b hb
      simp only [List.mem_map] at hb
      obtain ⟨v, _, rfl⟩ := hb
      exact read_replicate_none n v
  rw [e, e]

/-- C5 (evaluation at the failing input): for one message `01 02 03` and one recipient
`04 05`, the collaborator is called once with one message view and one recipient view, and
both views refer to strings already destroyed; the bytes of the message and of the
recipient do not reach it. -/
theorem encryptForMultipleSimple_one_message :
    (Java_network_loki_messenger_libsession_1util_util_Sodium_encryptForMultipleSimple___3_3B_3_3B_3BLjava_lang_String_2
        (fun _ => []) (List.replicate 24 0) [[1, 2, 3]] [[4, 5]] [9] [100]).encrypt_calls
      = [⟨[none], [none], [9], [100], List.replicate 24 0⟩] ∧
    (Java_network_loki_messenger_libsession_1util_util_Sodium_encryptForMultipleSimple___3_3B_3_3B_3BLjava_lang_String_2
        (fun _ => []) (List.replicate 24 0) [[1, 2, 3]] [[4, 5]] [9] [100]).calls
      = [Call.GetObjectArrayElement "messages" 0, Call.GetObjectArrayElement "recipients" 0] := by
  constructor <;> decide

/-- C4 (as amended): `serialize_session_id` returns null without any managed call exactly
when the length of the view is not 66; for a view of 66 characters the factory
`SessionId.from` is called once, with the C string at the data pointer, that is, with the
characters from the start of the view up to the next NUL of its buffer, and the result of
the factory is returned; that string is the view itself when the view holds no NUL and a
NUL directly follows it. -/
theorem serialize_session_id_length (SessionId_from : jstring → Option SessionId)
    (s : string_view) :
    (((serialize_session_id SessionId_from s).value = none ∧
        (serialize_session_id SessionId_from s).calls = []) ↔ s.size ≠ 66) ∧
      (s.size = 66 →
        (serialize_session_id SessionId_from s).value
          = SessionId_from ((s.chars ++ s.following).takeWhile (fun c => c ≠ 0)) ∧
        (serialize_session_id SessionId_from s).calls
          = [Call.CallStaticObjectMethod "org/session/libsignal/utilities/SessionId" "from"
              ((s.chars ++ s.following).takeWhile (fun c => c ≠ 0))]) ∧
      (s.size = 66 → (0 : uchar) ∉ s.chars →
        (s.following = [] ∨ s.following.head? = some 0) →
        (serialize_session_id SessionId_from s).value = SessionId_from s.chars ∧
        (serialize_session_id SessionId_from s).calls
          = [Call.CallStaticObjectMethod "org/session/libsignal/utilities/SessionId" "from"
              s.chars]) := by
  unfold serialize_session_id
  by_cases h : s.size = 66
  · simp only [h, ne_eq, not_true_eq_false, if_false, NewStringUTF, string_view.data]
    refine ⟨by simp, fun _ => ⟨trivial, trivial⟩, fun _ h0 hf => ?_⟩
    have hall : ∀ a ∈ s.chars, (fun c : uchar => decide (c ≠ 0)) a = true := by
      intro a ha
      have : a ≠ 0 := fun e => h0 (e ▸ ha)
      simpa using this
    have htail : s.following.takeWhile (fun c => c ≠ 0) = [] := by
      rcases hf with hf | hf
      · rw [hf]; rfl
      · cases hrest : s.following with
        | nil => rfl
        | cons a t =>
          rw [hrest] at hf
          simp only [List.head?_cons, Option.some.injEq] at hf
          rw [hf]
          simp [List.takeWhile]
    rw [List.takeWhile_append_of_pos hall, htail, List.append_nil]
    exact ⟨rfl, rfl⟩
  · simp only [h, ne_eq, not_false_eq_true, if_true]
    exact ⟨by simp, fun e => absurd e (by simp), fun e => absurd e (by simp)⟩

/-- Witness of C4: views of 65 and of 67 characters give null with no call, and a view of
the whole string of 66 characters `0` reaches the factory unchanged. -/
theorem serialize_session_id_length_witness :
    ((serialize_session_id (fun h => some ⟨h⟩) ⟨List.replicate 65 48, []⟩).value = none ∧
        (serialize_session_id (fun h => some ⟨h⟩) ⟨List.replicate 65 48, []⟩).calls = []) ∧
      ((serialize_session_id (fun h => some ⟨h⟩) ⟨List.replicate 67 48, []⟩).value = none ∧
        (serialize_session_id (fun h => some ⟨h⟩) ⟨List.replicate 67 48, []⟩).calls = []) ∧
      ((serialize_session_id (fun h => some ⟨h⟩) ⟨List.replicate 66 48, []⟩).value
          = some ⟨List.replicate 66 48⟩ ∧
        (serialize_session_id (fun h => some ⟨h⟩) ⟨List.replicate 66 48, []⟩).calls
          = [Call.CallStaticObjectMethod "org/session/libsignal/utilities/SessionId" "from"
              (List.replicate 66 48)]) :=
  ⟨(serialize_session_id_length (fun h => some ⟨h⟩) ⟨List.replicate 65 48, []⟩).1.mpr
      (by decide),
    (serialize_session_id_length (fun h => some ⟨h⟩) ⟨List.replicate 67 48, []⟩).1.mpr
      (by decide),
    (serialize_session_id_length (fun h => some ⟨h⟩) ⟨List.replicate 66 48, []⟩).2.2
      (by decide) (by decide) (Or.inl rfl)⟩

/-- C4 (counterexample): a view of 66 characters is not always passed unchanged.  A view
that starts with a NUL reaches the factory as the empty string; a view of the first 66
characters of a buffer of 70 characters reaches it as the 70 characters. -/
theorem serialize_session_id_nul :
    (string_view.mk (0 :: List.replicate 65 48) []).size = 66 ∧
      (serialize_session_id (fun h => some ⟨h⟩) ⟨0 :: List.replicate 65 48, []⟩).calls
        = [Call.CallStaticObjectMethod "org/session/libsignal/utilities/SessionId" "from" []] ∧
      (serialize_session_id (fun h => some ⟨h⟩) ⟨0 :: List.replicate 65 48, []⟩).value
        = some ⟨[]⟩ ∧
      (string_view.mk (List.replicate 66 48) [49, 50, 51, 52]).size = 66 ∧
      (serialize_session_id (fun h => some ⟨h⟩)
          ⟨List.replicate 66 48, [49, 50, 51, 52]⟩).calls
        = [Call.CallStaticObjectMethod "org/session/libsignal/utilities/SessionId" "from"
            (List.replicate 66 48 ++ [49, 50, 51, 52])] ∧
      (serialize_session_id (fun h => some ⟨h⟩)
          ⟨List.replicate 66 48, [49, 50, 51, 52]⟩).value
        = some ⟨List.replicate 66 48 ++ [49, 50, 51, 52]⟩ := by
  refine ⟨by decide, by decide, by decide, by decide, by decide, by decide⟩

/-- C6: `ed25519PkToCurve25519` throws and returns null exactly when the conversion reports
a status other than zero; when the status is zero it makes no managed call and returns an
array of exactly 32 bytes, the bytes of the converted key. -/
theorem ed25519PkToCurve25519_status (conv : ustring → Int × array32) (pk : jbyteArray) :
    (((Java_network_loki_messenger_libsession_1util_util_Sodium_ed25519PkToCurve25519
          conv pk).calls
          = [Call.ThrowNew "java/lang/Exception"
              "Invalid crypto_sign_ed25519_pk_to_curve25519 operation"] ∧
        (Java_network_loki_messenger_libsession_1util_util_Sodium_ed25519PkToCurve25519
          conv pk).value = none) ↔ (conv (ustring_from_bytes pk)).1 ≠ 0) ∧
      ((conv (ustring_from_bytes pk)).1 = 0 →
        (Java_network_loki_messenger_libsession_1util_util_Sodium_ed25519PkToCurve25519
          conv pk).calls = [] ∧
        (Java_network_loki_messenger_libsession_1util_util_Sodium_ed25519PkToCurve25519
          conv pk).value = some ((conv (ustring_from_bytes pk)).2.val.map to_jbyte) ∧
        ((conv (ustring_from_bytes pk)).2.val.map to_jbyte).length = 32 ∧
        ((conv (ustring_from_bytes pk)).2.val.map to_jbyte).map to_uchar
          = (conv (ustring_from_bytes pk)).2.val) := by
  have hlen : (conv (ustring_from_bytes pk)).2.val.length < 2 ^ 31 := by
    rw [(conv (ustring_from_bytes pk)).2.property]; norm_num
  have hb := bytes_from_ustring_of_lt _ hlen
  unfold Java_network_loki_messenger_libsession_1util_util_Sodium_ed25519PkToCurve25519
  by_cases h : (conv (ustring_from_bytes pk)).1 = 0
  · simp only [h, ne_eq, not_true_eq_false, if_false, hb]
    refine ⟨by simp, fun _ => ⟨trivial, trivial, ?_, ?_⟩⟩
    · rw [List.length_map, (conv (ustring_from_bytes pk)).2.property]
    · simp [Function.comp_def, to_uchar_to_jbyte]
  · simp only [h, ne_eq, not_false_eq_true, if_true]
    exact ⟨by simp, fun e => absurd e (by simp)⟩

/-- Witness of C6: a conversion that accepts every key and gives 32 bytes `07`. -/
theorem ed25519PkToCurve25519_status_witness :
    (Java_network_loki_messenger_libsession_1util_util_Sodium_ed25519PkToCurve25519
        (fun _ => (0, ⟨List.replicate 32 7, by decide⟩)) [1, 2, 3]).calls = [] ∧
      (Java_network_loki_messenger_libsession_1util_util_Sodium_ed25519PkToCurve25519
        (fun _ => (0, ⟨List.replicate 32 7, by decide⟩)) [1, 2, 3]).value
        = some (List.replicate 32 7) :=
  ⟨((ed25519PkToCurve25519_status (fun _ => (0, ⟨List.replicate 32 7, by decide⟩))
      [1, 2, 3]).2 rfl).1,
    ((ed25519PkToCurve25519_status (fun _ => (0, ⟨List.replicate 32 7, by decide⟩))
      [1, 2, 3]).2 rfl).2.1⟩

/-- C7: `Config.free` dispatches on the runtime class of the wrapper: for `ConfigSig` it
deletes the pointer as a `ConfigSig`, for `ConfigBase` as a `ConfigBase`, which for a
pointer that is not null invokes that destructor on it and ends the life of the object; for
every other class nothing changes: no destructor runs and the live objects stay the same. -/
theorem Config_free_dispatch (thiz : Config) (n : Native) :
    (thiz.cls = cls_ConfigSig →
        Java_network_loki_messenger_libsession_1util_Config_free thiz n
          = n.delete ConfigType.ConfigSig thiz.pointer ∧
        (thiz.pointer ≠ 0 →
          (Java_network_loki_messenger_libsession_1util_Config_free thiz n).destroyed
            = n.destroyed ++ [(ConfigType.ConfigSig, thiz.pointer)] ∧
          (Java_network_loki_messenger_libsession_1util_Config_free thiz n).live
            = n.live.erase thiz.pointer)) ∧
      (thiz.cls = cls_ConfigBase →
        Java_network_loki_messenger_libsession_1util_Config_free thiz n
          = n.delete ConfigType.ConfigBase thiz.pointer ∧
        (thiz.pointer ≠ 0 →
          (Java_network_loki_messenger_libsession_1util_Config_free thiz n).destroyed
            = n.destroyed ++ [(ConfigType.ConfigBase, thiz.pointer)] ∧
          (Java_network_loki_messenger_libsession_1util_Config_free thiz n).live
            = n.live.erase thiz.pointer)) ∧
      (thiz.cls ≠ cls_ConfigSig → thiz.cls ≠ cls_ConfigBase →
        Java_network_loki_messenger_libsession_1util_Config_free thiz n = n) := by
  unfold Java_network_loki_messenger_libsession_1util_Config_free
  refine ⟨fun h => ?_, fun h => ?_, fun h1 h2 => ?_⟩
  · simp only [h, if_true]
    refine ⟨trivial, fun hp => ?_⟩
    simp [Native.delete, hp]
  · have hne : ¬ (cls_ConfigSig = cls_ConfigBase) := by decide
    simp only [h, hne, if_false, if_true]
    refine ⟨trivial, fun hp => ?_⟩
    simp [Native.delete, hp]
  · have h1' : ¬ (cls_ConfigSig = thiz.cls) := fun e => h1 e.symm
    have h2' : ¬ (cls_ConfigBase = thiz.cls) := fun e => h2 e.symm
    simp only [h1', h2', if_false]

/-- Witness of C7: a `ConfigSig` wrapper, a `ConfigBase` wrapper and a wrapper of another
class, each holding the live pointer 4096. -/
theorem Config_free_dispatch_witness :
    (Java_network_loki_messenger_libsession_1util_Config_free ⟨cls_ConfigSig, 4096⟩
        ⟨[4096, 8192], []⟩ = ⟨[8192], [(ConfigType.ConfigSig, 4096)]⟩) ∧
      (Java_network_loki_messenger_libsession_1util_Config_free ⟨cls_ConfigBase, 4096⟩
        ⟨[4096, 8192], []⟩ = ⟨[8192], [(ConfigType.ConfigBase, 4096)]⟩) ∧
      (Java_network_loki_messenger_libsession_1util_Config_free
        ⟨"network/loki/messenger/libsession_util/UserProfile", 4096⟩ ⟨[4096, 8192], []⟩
          = ⟨[4096, 8192], []⟩) :=
  ⟨((Config_free_dispatch ⟨cls_ConfigSig, 4096⟩ ⟨[4096, 8192], []⟩).1 rfl).1.trans
      (by decide),
    ((Config_free_dispatch ⟨cls_ConfigBase, 4096⟩ ⟨[4096, 8192], []⟩).2.1 rfl).1.trans
      (by decide),
    (Config_free_dispatch ⟨"network/loki/messenger/libsession_util/UserProfile", 4096⟩
      ⟨[4096, 8192], []⟩).2.2 (by decide) (by decide)⟩

/-- C8 (as amended): for a wrapper of class `ConfigSig` or `ConfigBase` with a pointer that
is not null, every call of `Config.free` invokes the matching destructor once on the
pointer, whatever was released before: one call adds one invocation, two calls on the same
wrapper add two. -/
theorem Config_free_each_call (thiz : Config) (n : Native) (t : ConfigType)
    (hcls : (thiz.cls = cls_ConfigSig ∧ t = ConfigType.ConfigSig) ∨
      (thiz.cls = cls_ConfigBase ∧ t = ConfigType.ConfigBase))
    (hp : thiz.pointer ≠ 0) :
    (Java_network_loki_messenger_libsession_1util_Config_free thiz n).destroyed
        = n.destroyed ++ [(t, thiz.pointer)] ∧
      (Java_network_loki_messenger_libsession_1util_Config_free thiz
        (Java_network_loki_messenger_libsession_1util_Config_free thiz n)).destroyed
        = n.destroyed ++ [(t, thiz.pointer), (t, thiz.pointer)] := by
  have hne : ¬ (cls_ConfigSig = cls_ConfigBase) := by decide
  have key : ∀ k : Native,
      (Java_network_loki_messenger_libsession_1util_Config_free thiz k).destroyed
        = k.destroyed ++ [(t, thiz.pointer)] := by
    intro k
    unfold Java_network_loki_messenger_libsession_1util_Config_free
    rcases hcls with ⟨h, rfl⟩ | ⟨h, rfl⟩
    · simp [h, Native.delete, hp]
    · simp [h, hne, Native.delete, hp]
  refine ⟨key n, ?_⟩
  rw [key, key, List.append_assoc]
  rfl

/-- Witness of C8: a `ConfigBase` wrapper holding the live pointer 4096. -/
theorem Config_free_each_call_witness :
    (4096 : Int) ≠ 0 ∧
      (Java_network_loki_messenger_libsession_1util_Config_free ⟨cls_ConfigBase, 4096⟩
        ⟨[4096], []⟩).destroyed = [(ConfigType.ConfigBase, 4096)] ∧
      (Java_network_loki_messenger_libsession_1util_Config_free ⟨cls_ConfigBase, 4096⟩
        (Java_network_loki_messenger_libsession_1util_Config_free ⟨cls_ConfigBase, 4096⟩
          ⟨[4096], []⟩)).destroyed
        = [(ConfigType.ConfigBase, 4096), (ConfigType.ConfigBase, 4096)] :=
  ⟨by decide,
    Config_free_each_call ⟨cls_ConfigBase, 4096⟩ ⟨[4096], []⟩ ConfigType.ConfigBase
      (Or.inr ⟨rfl, rfl⟩) (by decide)⟩

/-- C8 (counterexample): `Config.free` called twice on the same `ConfigSig` wrapper, and
twice on the same `ConfigBase` wrapper, invokes the destructor twice on the one pointer, the
second time on an object that is no longer live. -/
theorem Config_free_twice :
    Java_network_loki_messenger_libsession_1util_Config_free ⟨cls_ConfigSig, 4096⟩
        (Java_network_loki_messenger_libsession_1util_Config_free ⟨cls_ConfigSig, 4096⟩
          ⟨[4096], []⟩)
      = ⟨[], [(ConfigType.ConfigSig, 4096), (ConfigType.ConfigSig, 4096)]⟩ ∧
    Java_network_loki_messenger_libsession_1util_Config_free ⟨cls_ConfigBase, 4096⟩
        (Java_network_loki_messenger_libsession_1util_Config_free ⟨cls_ConfigBase, 4096⟩
          ⟨[4096], []⟩)
      = ⟨[], [(ConfigType.ConfigBase, 4096), (ConfigType.ConfigBase, 4096)]⟩ := by
  constructor <;> decide

/-- C11: `decryptForMultipleSimple` returns null exactly when the decryption gives no
value; when the decryption gives a message, it returns an array of the same length holding
the bytes of the message in order; in both cases it makes no managed call, so nothing is
thrown when the envelope does not authenticate. -/
theorem decryptForMultipleSimple_result
    (decrypt : ustring → ustring → ustring → List uchar → Option message)
    (encoded secret_key sender_pub_key : jbyteArray) (domain : jstring) :
    ((Java_network_loki_messenger_libsession_1util_util_Sodium_decryptForMultipleSimple
          decrypt encoded secret_key sender_pub_key domain).value = none ↔
        decrypt (ustring_from_bytes encoded) (ustring_from_bytes secret_key)
          (ustring_from_bytes sender_pub_key) (GetStringUTFChars domain) = none) ∧
      (∀ m : message,
        decrypt (ustring_from_bytes encoded) (ustring_from_bytes secret_key)
          (ustring_from_bytes sender_pub_key) (GetStringUTFChars domain) = some m →
        (Java_network_loki_messenger_libsession_1util_util_Sodium_decryptForMultipleSimple
          decrypt encoded secret_key sender_pub_key domain).value
            = some (m.val.map to_jbyte) ∧
          (m.val.map to_jbyte).length = m.val.length ∧
          ustring_from_bytes (m.val.map to_jbyte) = m.val) ∧
      (Java_network_loki_messenger_libsession_1util_util_Sodium_decryptForMultipleSimple
        decrypt encoded secret_key sender_pub_key domain).calls = [] := by
  cases h : decrypt (ustring_from_bytes encoded) (ustring_from_bytes secret_key)
      (ustring_from_bytes sender_pub_key) (GetStringUTFChars domain) with
  | none =>
    simp only [Java_network_loki_messenger_libsession_1util_util_Sodium_decryptForMultipleSimple,
      h]
    exact ⟨by simp, fun m hm => (by cases hm), trivial⟩
  | some m =>
    have hb := bytes_from_ustring_of_lt m.val m.property
    simp only [Java_network_loki_messenger_libsession_1util_util_Sodium_decryptForMultipleSimple,
      h, hb]
    refine ⟨by simp, fun m2 hm => ?_, trivial⟩
    cases hm
    exact ⟨rfl, List.length_map _ _, ustring_from_bytes_map _⟩

/-- Witness of C11: a decryption that gives the message `01 00 ff` for the envelope `05`
and no value for any other envelope. -/
theorem decryptForMultipleSimple_result_witness :
    (Java_network_loki_messenger_libsession_1util_util_Sodium_decryptForMultipleSimple
        (fun e _ _ _ => if e = [5] then some ⟨[1, 0, 255], by decide⟩ else none)
        [5] [1] [2] [100]).value = some [1, 0, -1] ∧
      (Java_network_loki_messenger_libsession_1util_util_Sodium_decryptForMultipleSimple
        (fun e _ _ _ => if e = [5] then some ⟨[1, 0, 255], by decide⟩ else none)
        [6] [1] [2] [100]).value = none :=
  ⟨((decryptForMultipleSimple_result
      (fun e _ _ _ => if e = [5] then some ⟨[1, 0, 255], by decide⟩ else none)
      [5] [1] [2] [100]).2.1 ⟨[1, 0, 255], by decide⟩ (by decide)).1,
    (decryptForMultipleSimple_result
      (fun e _ _ _ => if e = [5] then some ⟨[1, 0, 255], by decide⟩ else none)
      [6] [1] [2] [100]).1.mpr (by decide)⟩

/-- C12: `jlongFromOptional` returns null exactly when the optional is absent, and for a
present value of the signed 64-bit range it returns a boxed `Long` holding that value. -/
theorem jlongFromOptional_exact (v : Option Int) :
    (jlongFromOptional v = none ↔ v = none) ∧
      (∀ x : Int, -(2 ^ 63) ≤ x → x < 2 ^ 63 → v = some x →
        jlongFromOptional v = some ⟨x⟩) := by
  cases v with
  | none => exact ⟨by simp [jlongFromOptional], fun x _ _ h => by cases h⟩
  | some y =>
    refine ⟨by simp [jlongFromOptional], fun x hlo hhi h => ?_⟩
    cases h
    simp only [jlongFromOptional, to_jlong_of_range y hlo hhi]

/-- Witness of C12: the least value of the signed 64-bit range. -/
theorem jlongFromOptional_exact_witness :
    (-(2 ^ 63) ≤ (-9223372036854775808 : Int) ∧ (-9223372036854775808 : Int) < 2 ^ 63) ∧
      jlongFromOptional (some (-9223372036854775808)) = some ⟨-9223372036854775808⟩ ∧
      jlongFromOptional none = none :=
  ⟨⟨by norm_num, by norm_num⟩,
    (jlongFromOptional_exact (some (-9223372036854775808))).2 (-9223372036854775808)
      (by norm_num) (by norm_num) rfl,
    (jlongFromOptional_exact none).1.mpr rfl⟩

/-- C13: in `deserialize_group_member` the admin flag of the result is the managed `admin`
field whatever the four status flags are, the invite status depends on `invitePending` and
`inviteFailed` only, and the promotion status on `promotionPending` and `promotionFailed`
only. -/
theorem deserialize_group_member_frame (gm gm2 : GroupMember) :
    (deserialize_group_member gm).admin = gm.admin ∧
      (gm.invitePending = gm2.invitePending → gm.inviteFailed = gm2.inviteFailed →
        (deserialize_group_member gm).invite_status
          = (deserialize_group_member gm2).invite_status) ∧
      (gm.promotionPending = gm2.promotionPending →
        gm.promotionFailed = gm2.promotionFailed →
        (deserialize_group_member gm).promotion_status
          = (deserialize_group_member gm2).promotion_status) := by
  obtain ⟨a1, a2, a3, _⟩ := deserialize_group_member_decode gm
  obtain ⟨b1, b2, _⟩ := deserialize_group_member_decode gm2
  refine ⟨a3, fun h1 h2 => ?_, fun h1 h2 => ?_⟩
  · rw [a1, b1, h1, h2]
  · rw [a2, b2, h1, h2]

/-- Witness of C13: two managed members that agree on the invite flags and on the promotion
flags and differ in every other field. -/
theorem deserialize_group_member_frame_witness :
    (deserialize_group_member
        ⟨[48, 53], [97], ⟨[], []⟩, true, false, false, false, true⟩).admin = false ∧
      (deserialize_group_member
        ⟨[48, 53], [97], ⟨[], []⟩, true, false, false, false, true⟩).invite_status
        = (deserialize_group_member
            ⟨[48, 54], [98], ⟨[104], [7]⟩, true, false, true, false, true⟩).invite_status ∧
      (deserialize_group_member
        ⟨[48, 53], [97], ⟨[], []⟩, true, false, false, false, true⟩).promotion_status
        = (deserialize_group_member
            ⟨[48, 54], [98], ⟨[104], [7]⟩, true, false, true, false, true⟩).promotion_status :=
  ⟨(deserialize_group_member_frame
      ⟨[48, 53], [97], ⟨[], []⟩, true, false, false, false, true⟩
      ⟨[48, 54], [98], ⟨[104], [7]⟩, true, false, true, false, true⟩).1,
    (deserialize_group_member_frame
      ⟨[48, 53], [97], ⟨[], []⟩, true, false, false, false, true⟩
      ⟨[48, 54], [98], ⟨[104], [7]⟩, true, false, true, false, true⟩).2.1 rfl rfl,
    (deserialize_group_member_frame
      ⟨[48, 53], [97], ⟨[], []⟩, true, false, false, false, true⟩
      ⟨[48, 54], [98], ⟨[104], [7]⟩, true, false, true, false, true⟩).2.2 rfl rfl⟩
